import Mathlib

/-!
Verification development for the b2cs storage backend
(`cloud/storage/b2cs/b2cs.go` plus its external collaborators).

The Go source is embedded shallowly: the stateful backend `b2csImpl`
becomes a Lean structure threaded explicitly through each operation,
machine integers become `Int`/`Nat`, and fallible operations return
`Except Err _` or carry an `Option Err`.  The external collaborators
(the blazer B2 client's iterator, the upspin LRU cursor cache, and the
remote service itself) are not part of this repository's sources; they
are modelled from the specification, each with a doc comment saying so.
-/

namespace B2cs

/-- Error classification, following the upspin error kinds used by the
source (`errors.Invalid`, `errors.IO`, `errors.NotExist`,
`errors.Transient`), plus `Unsupported` for the `upspin.ErrNotSupported`
sentinel and `Raw` for errors the source returns unwrapped (such as the
iterator's own error from `iter.Err()`). -/
inductive ErrKind
  | Invalid
  | IOErr
  | NotExist
  | Transient
  | Unsupported
  | Raw
  deriving DecidableEq

/-- An error value: the operation label, the kind, and the message. -/
structure Err where
  op : String
  kind : ErrKind
  msg : String
  deriving DecidableEq

/-- Modelled from the spec: one remote catalog object as seen through the
listing iterator — its name together with the result of `obj.Attrs`
(`some size` on success, `none` when the per-object attribute lookup
fails).  Object contents are not modelled; no claim depends on them. -/
structure B2Object where
  name : String
  attrs : Option Int
  deriving DecidableEq

/-- Modelled from the spec: the remote client's page-based listing
iterator (`b2api.ObjectIterator`): per-step advance, per-object
attributes, and end-of-iteration/error signalling.  `pending` is the
remainder of the catalog in iteration order, `stopErr` the error (if
any) with which the iteration ends once `pending` runs out, and `err`
the error already observed by a failed advance (what `iter.Err()`
returns). -/
structure ObjectIterator where
  pending : List B2Object
  stopErr : Option Err
  err : Option Err
  deriving DecidableEq

/-- The raw error a cancelled network context produces
(`context.Canceled`, returned unwrapped by `iter.Err()`). -/
def ctxCanceledErr : Err := ⟨"", ErrKind.Raw, "context canceled"⟩

/-- Modelled from the spec: advancing the iterator is a network
operation against the remote client, so after the instance-wide close
has cancelled the shared context it fails as a transport failure
(spec section 5).  Otherwise `next` yields the head of `pending`, or
signals the end of the iteration, recording `stopErr` in `err`. -/
def ObjectIterator.next (cancelled : Bool) (it : ObjectIterator) :
    ObjectIterator × Option B2Object :=
  if cancelled then ({ it with err := some ctxCanceledErr }, none)
  else
    match it.pending with
    | [] => ({ it with err := it.stopErr }, none)
    | o :: rest => ({ it with pending := rest }, some o)

/-- The bucket visibility type (`b2api.BucketType`). -/
inductive BucketType
  | Public
  | Private
  | Snapshot
  deriving DecidableEq

/-- Modelled from the spec: the remote bucket handle.  `objs` is the
catalog in iteration order, `iterStop` an error (if any) with which a
full iteration over the catalog ends, and `attrsType` the result of the
bucket attribute lookup (`none` when that lookup fails). -/
structure Bucket where
  name : String
  baseURL : String
  objs : List B2Object
  iterStop : Option Err
  attrsType : Option BucketType
  deriving DecidableEq

/-- Modelled from the spec: `bucket.Attrs(ctx)` — a network lookup of
the bucket's attributes, failing when the remote lookup fails or the
shared context has been cancelled. -/
def Bucket.Attrs (b : Bucket) (cancelled : Bool) : Option BucketType :=
  if cancelled then none else b.attrsType

/-- A fresh iterator over the whole catalog, as produced by
`b2.bucket.List(b2.ctx, b2api.ListPageSize(maxResults))`. -/
def freshIter (b : Bucket) : ObjectIterator :=
  ⟨b.objs, b.iterStop, none⟩

/-- Modelled from the spec: the Bounded Cursor Cache
(`upspin.io/cache.LRU`, absent from src) — a fixed-capacity
least-recently-used map from token strings to in-flight cursors,
evicting the oldest entry when capacity is exceeded.  `entries` is kept
most-recently-used first.  The real cache also refreshes an entry's
recency on `Get`; in this code every `Get` is immediately followed by
`Remove` of the same key, so that refresh is observationally irrelevant
and is not modelled. -/
structure LRU where
  cap : Nat
  entries : List (String × ObjectIterator)
  deriving DecidableEq

/-- The `cache.LRU.Get` operation: look a token up. -/
def LRU.get (c : LRU) (k : String) : Option ObjectIterator :=
  (c.entries.find? (fun p => p.1 == k)).map (fun p => p.2)

/-- The `cache.LRU.Remove` operation: drop a token's entry. -/
def LRU.remove (c : LRU) (k : String) : LRU :=
  { c with entries := c.entries.filter (fun p => p.1 != k) }

/-- The `cache.LRU.Add` operation: insert at the most-recent end, replacing any entry
with the same key, and discard the least-recently-used entries beyond
the capacity. -/
def LRU.add (c : LRU) (k : String) (v : ObjectIterator) : LRU :=
  { c with entries := ((k, v) :: c.entries.filter (fun p => p.1 != k)).take c.cap }

/-- One listing result item (`upspin.ListRefsItem`): reference name and
size. -/
structure ListRefsItem where
  ref : String
  size : Int
  deriving DecidableEq

/-- The backend instance `b2csImpl`: remote client and bucket handles
(cleared by `Close`), the memoized bucket visibility (`none` models the
zero value `""`), the cursor cache, and whether the shared network
context has been cancelled. -/
structure b2csImpl where
  client : Bool
  bucket : Option Bucket
  access : Option BucketType
  cursors : LRU
  ctxCancelled : Bool
  deriving DecidableEq

/-- The state `New` returns on success: the obtained bucket, unresolved
visibility, and `cache.NewLRU(100)`. -/
def mkB2cs (b : Bucket) : b2csImpl :=
  { client := true
    bucket := some b
    access := none
    cursors := ⟨100, []⟩
    ctxCancelled := false }

/-- The `getIter` helper: an empty token starts a fresh iteration over the bucket;
a non-empty token is looked up in the cursor cache and, when found,
immediately removed (`Get` then `Remove`), otherwise the call fails with
the `errors.IO` "unknown token" error.  The empty-token case with a
cleared bucket handle (only reachable after `Close`) is modelled from
the spec: an operation on a closed instance fails rather than crashing
(spec section 7, `Transient`). -/
def b2csImpl.getIter (s : b2csImpl) (token : String) :
    Except Err (ObjectIterator × b2csImpl) :=
  if token = "" then
    match s.bucket with
    | some b => Except.ok (freshIter b, s)
    | none =>
        Except.error ⟨"cloud/storage/b2cs.List", ErrKind.Transient,
          "B2 implementation is not initialized"⟩
  else
    match s.cursors.get token with
    | none =>
        Except.error ⟨"cloud/storage/b2cs.List", ErrKind.IOErr,
          "unknown token: " ++ token⟩
    | some it => Except.ok (it, { s with cursors := s.cursors.remove token })

/-- The collection loop of `List`:
`for i := 0; i < maxResults && iter.Next(); i++ { ... }`.
Each step advances the iterator, then looks the object's attributes up;
an attribute failure aborts the page at once, returning the failing
object's name (third component `some name`). -/
def collectLoop (cancelled : Bool) :
    Nat → ObjectIterator → List ListRefsItem →
    List ListRefsItem × ObjectIterator × Option String
  | 0, it, acc => (acc, it, none)
  | fuel + 1, it, acc =>
    match it.next cancelled with
    | (it', none) => (acc, it', none)
    | (it', some o) =>
      match o.attrs with
      | none => (acc, it', some o.name)
      | some sz => collectLoop cancelled fuel it' (acc ++ [⟨o.name, sz⟩])

/-- The tail of `List` after a cursor has been obtained: run the
collection loop; an attribute failure returns the items so far with an
empty token and an `errors.IO` error; otherwise, if the iteration
reported an error or fewer than `maxResults` items were collected,
return the items with an empty token, propagating `iter.Err()`; else
mint the fresh token (the `randomToken()` value is passed in as `ft`),
store the live cursor under it, and return it with a nil error. -/
def b2csImpl.listFrom (s : b2csImpl) (maxResults : Nat) (ft : String)
    (it : ObjectIterator) :
    (List ListRefsItem × String × Option Err) × b2csImpl :=
  match collectLoop s.ctxCancelled maxResults it [] with
  | (refs, _, some nm) =>
      ((refs, "", some ⟨"cloud/storage/b2cs.List", ErrKind.IOErr,
        "unable to get object attributes " ++ nm⟩), s)
  | (refs, it', none) =>
      if it'.err.isSome || refs.length < maxResults then
        ((refs, "", it'.err), s)
      else
        ((refs, ft, none), { s with cursors := s.cursors.add ft it' })

/-- The `List` method (named `list` here; `List` is taken by Lean's list type).
`maxResults` is the package-level page-size variable (default 1000,
overridden in tests), and `ft` stands for the `randomToken()` call's
result. -/
def b2csImpl.list (s : b2csImpl) (maxResults : Nat) (ft token : String) :
    (List ListRefsItem × String × Option Err) × b2csImpl :=
  match s.getIter token with
  | Except.error e => (([], "", some e), s)
  | Except.ok (it, s1) => s1.listFrom maxResults ft it

/-- The `Close` method: cancel the shared context and clear the bucket and client
references.  The cursor cache is left as it is. -/
def b2csImpl.Close (s : b2csImpl) : b2csImpl :=
  { s with ctxCancelled := true, bucket := none, client := false }

/-- The `checkAccess` helper: set the fallback `Private`, then overwrite it with
the bucket's attribute type when the lookup succeeds. -/
def b2csImpl.checkAccess (s : b2csImpl) : b2csImpl :=
  match s.bucket with
  | none => s
  | some b =>
    match b.Attrs s.ctxCancelled with
    | none => { s with access := some BucketType.Private }
    | some t => { s with access := some t }

/-- The `LinkBase` method: a cleared bucket handle yields the `Transient` error;
otherwise the visibility is classified once (`access == ""`) and
memoized; a public bucket yields the browsing URL, anything else the
`upspin.ErrNotSupported` sentinel. -/
def b2csImpl.LinkBase (s : b2csImpl) : Except Err String × b2csImpl :=
  match s.bucket with
  | none =>
      (Except.error ⟨"cloud/storage/b2cs.LinkBase", ErrKind.Transient,
        "B2 implementation is not initialized"⟩, s)
  | some b =>
    let s1 := if s.access = none then s.checkAccess else s
    if s1.access = some BucketType.Public then
      (Except.ok (b.baseURL ++ "/file/" ++ b.name ++ "/"), s1)
    else
      (Except.error ⟨"cloud/storage/b2cs.LinkBase", ErrKind.Unsupported,
        "not supported"⟩, s1)

/-- The `Download` method.  The remote read is modelled from the spec: with a
cleared bucket handle or a cancelled context the transfer fails as a
transport failure; a missing object is the `IsNotExist` case; object
bytes themselves are not modelled, so success carries `Unit`. -/
def b2csImpl.Download (s : b2csImpl) (ref : String) : Except Err Unit :=
  match s.bucket with
  | none =>
      Except.error ⟨"cloud/storage/b2cs.Download", ErrKind.IOErr,
        "unable to download ref " ++ ref⟩
  | some b =>
    if s.ctxCancelled then
      Except.error ⟨"cloud/storage/b2cs.Download", ErrKind.IOErr,
        "unable to download ref " ++ ref⟩
    else
      match b.objs.find? (fun o => o.name == ref) with
      | none =>
          Except.error ⟨"cloud/storage/b2cs.Download", ErrKind.NotExist,
            "no such file: " ++ ref⟩
      | some _ => Except.ok ()

/-- The `Put` method.  The remote streaming upload is modelled from the spec: with
a cleared bucket handle or a cancelled context the stream fails as a
transport failure, which `Put` wraps as an `errors.IO` error. -/
def b2csImpl.Put (s : b2csImpl) (ref : String) : Except Err Unit :=
  match s.bucket with
  | none =>
      Except.error ⟨"cloud/storage/b2cs.Put", ErrKind.IOErr,
        "unable to upload ref " ++ ref⟩
  | some _ =>
    if s.ctxCancelled then
      Except.error ⟨"cloud/storage/b2cs.Put", ErrKind.IOErr,
        "unable to upload ref " ++ ref⟩
    else Except.ok ()

/-- The `Delete` method.  The remote deletion is modelled from the spec: with a
cleared bucket handle or a cancelled context it fails as a transport
failure; a missing object is the `IsNotExist` case. -/
def b2csImpl.Delete (s : b2csImpl) (ref : String) : Except Err Unit :=
  match s.bucket with
  | none =>
      Except.error ⟨"cloud/storage/b2cs.Delete", ErrKind.IOErr,
        "unable to delete ref " ++ ref⟩
  | some b =>
    if s.ctxCancelled then
      Except.error ⟨"cloud/storage/b2cs.Delete", ErrKind.IOErr,
        "unable to delete ref " ++ ref⟩
    else
      match b.objs.find? (fun o => o.name == ref) with
      | none =>
          Except.error ⟨"cloud/storage/b2cs.Delete", ErrKind.NotExist,
            "no such file: " ++ ref⟩
      | some _ => Except.ok ()

/-- The dial option keys. -/
def accountID : String := "b2csAccount"

/-- The application key option. -/
def appKey : String := "b2csAppKey"

/-- The bucket name option. -/
def bucketName : String := "b2csBucketName"

/-- Access to the `storage.Opts.Opts` map, as an association list. -/
def lookupOpt (opts : List (String × String)) (k : String) : Option String :=
  (opts.find? (fun p => p.1 == k)).map (fun p => p.2)

/-- Modelled from the spec: the outcome of `client.Bucket(ctx, name)`
for the requested bucket name — found, reported not-exists, or failed
for another reason. -/
inductive LookupResult
  | found : Bucket → LookupResult
  | notExist
  | otherErr
  deriving DecidableEq

/-- Modelled from the spec: the remote service as seen by `New` — does
`b2api.NewClient` fail, what the bucket lookup reports for the requested
name, and what `client.NewBucket` returns (`none` on failure). -/
structure RemoteB2 where
  newClientErr : Bool
  lookup : LookupResult
  create : Option Bucket
  deriving DecidableEq

/-- The constructor `New`: validate the three required options before any network
activity, then create the client, then look the bucket up, creating it
when the lookup reports not-exists.  The second component counts remote
(network) calls made, to make "before any network activity" a provable
statement. -/
def New (r : RemoteB2) (opts : List (String × String)) :
    Except Err b2csImpl × Nat :=
  match lookupOpt opts accountID with
  | none =>
      (Except.error ⟨"cloud/storage/b2cs.New", ErrKind.Invalid,
        accountID ++ " option is required"⟩, 0)
  | some _ =>
  match lookupOpt opts appKey with
  | none =>
      (Except.error ⟨"cloud/storage/b2cs.New", ErrKind.Invalid,
        appKey ++ " option is required"⟩, 0)
  | some _ =>
  match lookupOpt opts bucketName with
  | none =>
      (Except.error ⟨"cloud/storage/b2cs.New", ErrKind.Invalid,
        bucketName ++ " option is required"⟩, 0)
  | some _ =>
  if r.newClientErr then
    (Except.error ⟨"cloud/storage/b2cs.New", ErrKind.IOErr,
      "unable to create B2 session"⟩, 1)
  else
    match r.lookup with
    | LookupResult.found b => (Except.ok (mkB2cs b), 2)
    | LookupResult.notExist =>
      match r.create with
      | some b => (Except.ok (mkB2cs b), 3)
      | none =>
          (Except.error ⟨"cloud/storage/b2cs.New", ErrKind.IOErr,
            "unable to obtain B2 bucket reference"⟩, 3)
    | LookupResult.otherErr =>
        (Except.error ⟨"cloud/storage/b2cs.New", ErrKind.IOErr,
          "unable to obtain B2 bucket reference"⟩, 2)

/-- The error kind of an `Except` result, if it is an error. -/
def exceptErrKind {α : Type} : Except Err α → Option ErrKind
  | Except.error e => some e.kind
  | Except.ok _ => none

/-- The item a good object contributes to a listing page. -/
def itemOf (o : B2Object) : ListRefsItem :=
  ⟨o.name, o.attrs.getD 0⟩

/-- The caller's resumption loop (the test helper `getAllRefs`): call
`list`, append the page, stop when the returned next token is empty,
otherwise continue with it.  `ts` supplies the `randomToken()` value for
each call, indexed by the call counter; the second component of the
result counts the calls made. -/
def driveList (P : Nat) (ts : Nat → String) :
    Nat → b2csImpl → String → Nat → List ListRefsItem →
    List ListRefsItem × Nat × Option Err
  | 0, _, _, calls, acc => (acc, calls, none)
  | fuel + 1, s, tok, calls, acc =>
    match s.list P (ts calls) tok with
    | ((refs, next, e), s') =>
      if next = "" then (acc ++ refs, calls + 1, e)
      else driveList P ts fuel s' next (calls + 1) (acc ++ refs)

/-! ### Sample states used by witnesses and counterexamples -/

/-- A catalog object with a good attribute lookup and size 5. -/
def sampleObj (i : Nat) : B2Object := ⟨"ref" ++ toString i, some 5⟩

/-- A catalog of `n` good objects. -/
def sampleCatalog (n : Nat) : List B2Object := (List.range n).map sampleObj

/-- A bucket over the ten-object catalog, with a clean end of iteration. -/
def sampleBucket : Bucket := ⟨"bkt", "https://host", sampleCatalog 10, none, none⟩

/-- The backend instance over `sampleBucket`, as `New` builds it. -/
def sampleState : b2csImpl := mkB2cs sampleBucket

/-- A bucket with a single good object, for the page-count counterexample. -/
def oneObjBucket : Bucket := ⟨"b", "u", [⟨"o", some 1⟩], none, none⟩

/-- A backend whose single object's attribute lookup fails. -/
def badAttrsState : b2csImpl := mkB2cs ⟨"b", "u", [⟨"x", none⟩], none, none⟩

/-- A backend with a capacity-1 cursor cache already holding token `"a"`. -/
def fullCacheState : b2csImpl :=
  { sampleState with cursors := ⟨1, [("a", ⟨[sampleObj 0], none, none⟩)]⟩ }

/-- The cursor left over after the first page of three of `sampleState`. -/
def sampleCursor : ObjectIterator := ⟨(sampleCatalog 10).drop 3, none, none⟩

/-- A public bucket. -/
def pubBucket : Bucket := ⟨"bk", "https://x", [], none, some BucketType.Public⟩

/-- A backend over a public bucket. -/
def pubState : b2csImpl := mkB2cs pubBucket

/-! ### Helper lemmas -/

/-- Removing a token makes its lookup fail. -/
theorem lru_get_remove_self (c : LRU) (k : String) : (c.remove k).get k = none := by
  simp only [LRU.get, LRU.remove, Option.map_eq_none']
  refine List.find?_eq_none.mpr ?_
  intro x hx
  have := (List.mem_filter.mp hx).2
  simp only [bne_iff_ne, ne_eq, decide_not] at this ⊢
  simpa using this

/-- Adding under a different key keeps an absent token absent. -/
theorem lru_get_add_none (c : LRU) (k k' : String) (v : ObjectIterator)
    (h : c.get k' = none) (hne : k ≠ k') : (c.add k v).get k' = none := by
  simp only [LRU.get, LRU.add, Option.map_eq_none'] at h ⊢
  refine List.find?_eq_none.mpr ?_
  intro x hx
  have hx' := List.take_subset _ _ hx
  rcases List.mem_cons.mp hx' with rfl | hmem
  · simpa using hne
  · have hxe : x ∈ c.entries := List.filter_subset' _ hmem
    have := List.find?_eq_none.mp h x hxe
    simpa using this

/-- The state `getIter` returns alongside the cursor: unchanged for a
fresh iteration, or with the consumed token removed. -/
theorem getIter_state (s : b2csImpl) (tok : String) (it : ObjectIterator)
    (s1 : b2csImpl) (h : s.getIter tok = Except.ok (it, s1)) :
    s1 = s ∨ s1 = { s with cursors := s.cursors.remove tok } := by
  unfold b2csImpl.getIter at h
  by_cases he : tok = ""
  · rw [if_pos he] at h
    cases hb : s.bucket with
    | none => rw [hb] at h; cases h
    | some b =>
      rw [hb] at h
      injection h with h'
      injection h' with h1 h2
      exact Or.inl h2.symm
  · rw [if_neg he] at h
    cases hg : s.cursors.get tok with
    | none => rw [hg] at h; cases h
    | some it0 =>
      rw [hg] at h
      injection h with h'
      injection h' with h1 h2
      exact Or.inr h2.symm

/-- Unfolding of `list` on a successful `getIter`. -/
theorem list_eq_of_getIter_ok (s : b2csImpl) (P : Nat) (ft tok : String)
    (it : ObjectIterator) (s1 : b2csImpl)
    (hg : s.getIter tok = Except.ok (it, s1)) :
    s.list P ft tok = s1.listFrom P ft it := by
  unfold b2csImpl.list
  rw [hg]

/-- Unfolding of `list` on a failed `getIter`. -/
theorem list_eq_of_getIter_err (s : b2csImpl) (P : Nat) (ft tok : String)
    (e : Err) (hg : s.getIter tok = Except.error e) :
    s.list P ft tok = (([], "", some e), s) := by
  unfold b2csImpl.list
  rw [hg]

/-- Unfolding of `listFrom` on a page cut short by an attribute-lookup failure. -/
theorem listFrom_attrs_fail (s : b2csImpl) (P : Nat) (ft : String)
    (it : ObjectIterator) (refs : List ListRefsItem) (it' : ObjectIterator)
    (nm : String)
    (hc : collectLoop s.ctxCancelled P it [] = (refs, it', some nm)) :
    s.listFrom P ft it =
      ((refs, "", some ⟨"cloud/storage/b2cs.List", ErrKind.IOErr,
        "unable to get object attributes " ++ nm⟩), s) := by
  unfold b2csImpl.listFrom
  rw [hc]

/-- Unfolding of `listFrom` on an errored or naturally completed page: empty next
token, `iter.Err()` propagated, no caching. -/
theorem listFrom_short (s : b2csImpl) (P : Nat) (ft : String)
    (it : ObjectIterator) (refs : List ListRefsItem) (it' : ObjectIterator)
    (hc : collectLoop s.ctxCancelled P it [] = (refs, it', none))
    (hcond : (it'.err.isSome || decide (refs.length < P)) = true) :
    s.listFrom P ft it = ((refs, "", it'.err), s) := by
  unfold b2csImpl.listFrom
  rw [hc]
  simp only [hcond, if_true]

/-- Unfolding of `listFrom` on a full page with no iteration error: the fresh token
is returned and the live cursor stored under it. -/
theorem listFrom_mint (s : b2csImpl) (P : Nat) (ft : String)
    (it : ObjectIterator) (refs : List ListRefsItem) (it' : ObjectIterator)
    (hc : collectLoop s.ctxCancelled P it [] = (refs, it', none))
    (hcond : (it'.err.isSome || decide (refs.length < P)) = false) :
    s.listFrom P ft it =
      ((refs, ft, none), { s with cursors := s.cursors.add ft it' }) := by
  unfold b2csImpl.listFrom
  rw [hc]
  simp only [hcond, Bool.false_eq_true, if_false]

/-! ### C5: construction option validation -/

/-- C5: with any of the three required options missing, `New` fails with
an Invalid-argument error and makes zero remote calls. -/
theorem new_missing_option_fails_fast (r : RemoteB2)
    (opts : List (String × String))
    (h : lookupOpt opts accountID = none ∨ lookupOpt opts appKey = none ∨
      lookupOpt opts bucketName = none) :
    (New r opts).2 = 0 ∧ exceptErrKind (New r opts).1 = some ErrKind.Invalid := by
  unfold New
  rcases h with h | h | h
  · rw [h]; exact ⟨rfl, rfl⟩
  · cases ha : lookupOpt opts accountID
    · exact ⟨rfl, rfl⟩
    · rw [h]; exact ⟨rfl, rfl⟩
  · cases ha : lookupOpt opts accountID
    · exact ⟨rfl, rfl⟩
    · cases hk : lookupOpt opts appKey
      · exact ⟨rfl, rfl⟩
      · rw [h]; exact ⟨rfl, rfl⟩

/-- C5 witness: construction with `applicationKey` missing fails with
`Invalid` and no remote call. -/
theorem new_missing_option_fails_fast_witness :
    lookupOpt [("b2csAccount", "a"), ("b2csBucketName", "b")] appKey = none ∧
    (New ⟨false, LookupResult.notExist, none⟩
        [("b2csAccount", "a"), ("b2csBucketName", "b")]).2 = 0 ∧
    exceptErrKind (New ⟨false, LookupResult.notExist, none⟩
        [("b2csAccount", "a"), ("b2csBucketName", "b")]).1 =
      some ErrKind.Invalid := by
  refine ⟨by decide, ?_⟩
  exact new_missing_option_fails_fast ⟨false, LookupResult.notExist, none⟩
    [("b2csAccount", "a"), ("b2csBucketName", "b")] (Or.inr (Or.inl (by decide)))

/-! ### C10: bucket creation on not-exists -/

/-- C10: with all options present and a working client, a not-exists
lookup leads to bucket creation and success when creation succeeds, and
an I/O failure can only come from an other-reason lookup failure or a
failed creation. -/
theorem new_creates_bucket_on_not_exists (r : RemoteB2)
    (opts : List (String × String)) (a k bn : String)
    (ha : lookupOpt opts accountID = some a)
    (hk : lookupOpt opts appKey = some k)
    (hb : lookupOpt opts bucketName = some bn)
    (hc : r.newClientErr = false) :
    (∀ b : Bucket, r.lookup = LookupResult.notExist → r.create = some b →
      (New r opts).1 = Except.ok (mkB2cs b)) ∧
    (∀ e : Err, (New r opts).1 = Except.error e → e.kind = ErrKind.IOErr →
      r.lookup = LookupResult.otherErr ∨
        (r.lookup = LookupResult.notExist ∧ r.create = none)) := by
  unfold New
  rw [ha, hk, hb, hc]
  simp only [Bool.false_eq_true, if_false]
  constructor
  · intro b hl hcr
    rw [hl, hcr]
  · intro e he hkind
    cases hl : r.lookup with
    | found b => rw [hl] at he; cases he
    | notExist =>
      cases hcr : r.create with
      | none => exact Or.inr ⟨rfl, rfl⟩
      | some b => rw [hl, hcr] at he; cases he
    | otherErr => exact Or.inl rfl

/-- C10 witness: a not-exists lookup followed by a successful creation
yields a working instance over the created bucket. -/
theorem new_creates_bucket_on_not_exists_witness :
    lookupOpt [("b2csAccount", "a"), ("b2csAppKey", "k"), ("b2csBucketName", "bkt")]
      accountID = some "a" ∧
    (New ⟨false, LookupResult.notExist, some sampleBucket⟩
        [("b2csAccount", "a"), ("b2csAppKey", "k"), ("b2csBucketName", "bkt")]).1 =
      Except.ok (mkB2cs sampleBucket) := by
  refine ⟨by decide, ?_⟩
  exact (new_creates_bucket_on_not_exists
    ⟨false, LookupResult.notExist, some sampleBucket⟩
    [("b2csAccount", "a"), ("b2csAppKey", "k"), ("b2csBucketName", "bkt")]
    "a" "k" "bkt" (by decide) (by decide) (by decide) rfl).1
    sampleBucket rfl rfl

/-! ### C9: errors never come with a resume token -/

/-- C9: whenever `list` returns a non-nil error, the returned next token
is the empty string, and no cursor was stored: the cache is unchanged
except possibly for the removal of the consumed token. -/
theorem error_implies_empty_token (s : b2csImpl) (P : Nat) (ft tok : String)
    (h : (s.list P ft tok).1.2.2 ≠ none) :
    (s.list P ft tok).1.2.1 = "" ∧
    (((s.list P ft tok).2).cursors = s.cursors ∨
      ((s.list P ft tok).2).cursors = s.cursors.remove tok) := by
  cases hg : s.getIter tok with
  | error e =>
    rw [list_eq_of_getIter_err s P ft tok e hg]
    exact ⟨rfl, Or.inl rfl⟩
  | ok p =>
    obtain ⟨it, s1⟩ := p
    have hs1 := getIter_state s tok it s1 hg
    have hL := list_eq_of_getIter_ok s P ft tok it s1 hg
    rw [hL] at h ⊢
    rcases hcl : collectLoop s1.ctxCancelled P it [] with ⟨refs, it', af⟩
    cases af with
    | some nm =>
      rw [listFrom_attrs_fail s1 P ft it refs it' nm hcl]
      refine ⟨rfl, ?_⟩
      rcases hs1 with rfl | rfl
      · exact Or.inl rfl
      · exact Or.inr rfl
    | none =>
      cases hbe : (it'.err.isSome || decide (refs.length < P)) with
      | true =>
        rw [listFrom_short s1 P ft it refs it' hcl hbe]
        refine ⟨rfl, ?_⟩
        rcases hs1 with rfl | rfl
        · exact Or.inl rfl
        · exact Or.inr rfl
      | false =>
        rw [listFrom_mint s1 P ft it refs it' hcl hbe] at h
        exact absurd rfl h

/-- C9 witness: an unknown-token call errors and indeed returns the
empty next token with an unchanged cache. -/
theorem error_implies_empty_token_witness :
    (sampleState.list 1 "t" "zz").1.2.2 ≠ none ∧
    (sampleState.list 1 "t" "zz").1.2.1 = "" := by
  have h : (sampleState.list 1 "t" "zz").1.2.2 ≠ none := by decide
  exact ⟨h, (error_implies_empty_token sampleState 1 "t" "zz" h).1⟩

/-! ### C8: operations after Close -/

/-- C8: after `Close` has cleared the bucket and client references and
cancelled the shared context, every operation fails: the store, fetch
and delete passthroughs, the listing (for any token and any positive
page size), and the base-URL query. -/
theorem operations_fail_after_close (s : b2csImpl) (r1 r2 r3 : String)
    (P : Nat) (ft tok : String) (hP : 1 ≤ P) :
    (∃ e, (s.Close).Download r1 = Except.error e) ∧
    (∃ e, (s.Close).Put r2 = Except.error e) ∧
    (∃ e, (s.Close).Delete r3 = Except.error e) ∧
    ((s.Close).list P ft tok).1.2.2 ≠ none ∧
    (∃ e, ((s.Close).LinkBase).1 = Except.error e) := by
  refine ⟨⟨_, rfl⟩, ⟨_, rfl⟩, ⟨_, rfl⟩, ?_, ⟨_, rfl⟩⟩
  obtain ⟨n, rfl⟩ : ∃ n, P = n + 1 := ⟨P - 1, by omega⟩
  by_cases he : tok = ""
  · subst he
    have hg : (s.Close).getIter "" = Except.error
        ⟨"cloud/storage/b2cs.List", ErrKind.Transient,
          "B2 implementation is not initialized"⟩ := rfl
    rw [list_eq_of_getIter_err _ _ _ _ _ hg]
    simp
  · cases hg : (s.Close).cursors.get tok with
    | none =>
      have hge : (s.Close).getIter tok = Except.error
          ⟨"cloud/storage/b2cs.List", ErrKind.IOErr,
            "unknown token: " ++ tok⟩ := by
        unfold b2csImpl.getIter
        rw [if_neg he, hg]
      rw [list_eq_of_getIter_err _ _ _ _ _ hge]
      simp
    | some it =>
      have hgi : (s.Close).getIter tok = Except.ok
          (it, { s.Close with cursors := (s.Close).cursors.remove tok }) := by
        unfold b2csImpl.getIter
        rw [if_neg he, hg]
      rw [list_eq_of_getIter_ok _ _ _ _ _ _ hgi]
      have hcl : collectLoop
          ({ s.Close with cursors := (s.Close).cursors.remove tok } :
            b2csImpl).ctxCancelled (n + 1) it [] =
          ([], { it with err := some ctxCanceledErr }, none) := rfl
      rw [listFrom_short _ _ _ _ _ _ hcl (by simp)]
      simp

/-- C8 witness: on a concrete closed instance all five operations
fail. -/
theorem operations_fail_after_close_witness :
    1 ≤ 3 ∧
    ((∃ e, (sampleState.Close).Download "ref0" = Except.error e) ∧
     (∃ e, (sampleState.Close).Put "ref1" = Except.error e) ∧
     (∃ e, (sampleState.Close).Delete "ref2" = Except.error e) ∧
     ((sampleState.Close).list 3 "t" "").1.2.2 ≠ none ∧
     (∃ e, ((sampleState.Close).LinkBase).1 = Except.error e)) :=
  ⟨by decide,
   operations_fail_after_close sampleState "ref0" "ref1" "ref2" 3 "t" ""
     (by decide)⟩

/-! ### C2: tokens are single-use -/

/-- After any `list` call consuming a cached token (and minting a fresh
token different from it, as `randomToken` does), that token is gone from
the cache whether or not the page completed. -/
theorem list_consumes_token (s : b2csImpl) (P : Nat) (ft tok : String)
    (it : ObjectIterator) (htok : tok ≠ "") (hft : ft ≠ tok)
    (hcache : s.cursors.get tok = some it) :
    ((s.list P ft tok).2).cursors.get tok = none := by
  have hgi : s.getIter tok =
      Except.ok (it, { s with cursors := s.cursors.remove tok }) := by
    unfold b2csImpl.getIter
    rw [if_neg htok, hcache]
  rw [list_eq_of_getIter_ok _ _ _ _ _ _ hgi]
  set s1 : b2csImpl := { s with cursors := s.cursors.remove tok } with hs1
  rcases hcl : collectLoop s1.ctxCancelled P it [] with ⟨refs, it', af⟩
  cases af with
  | some nm =>
    rw [listFrom_attrs_fail s1 P ft it refs it' nm hcl]
    exact lru_get_remove_self _ _
  | none =>
    cases hbe : (it'.err.isSome || decide (refs.length < P)) with
    | true =>
      rw [listFrom_short s1 P ft it refs it' hcl hbe]
      exact lru_get_remove_self _ _
    | false =>
      rw [listFrom_mint s1 P ft it refs it' hcl hbe]
      exact lru_get_add_none _ _ _ _ (lru_get_remove_self _ _) hft

/-- C2 (amended): a resume token is single-use, but the reuse failure is
an `errors.IO` "unknown token" error, not `NotExist`.  `ft ≠ tok` models
the freshness of the random token minted by the first call. -/
theorem token_single_use (s : b2csImpl) (P P2 : Nat) (ft ft2 tok : String)
    (it : ObjectIterator) (htok : tok ≠ "") (hft : ft ≠ tok)
    (hcache : s.cursors.get tok = some it) :
    ((s.list P ft tok).2.list P2 ft2 tok).1.2.2 =
      some ⟨"cloud/storage/b2cs.List", ErrKind.IOErr,
        "unknown token: " ++ tok⟩ := by
  have h := list_consumes_token s P ft tok it htok hft hcache
  have hge : ((s.list P ft tok).2).getIter tok = Except.error
      ⟨"cloud/storage/b2cs.List", ErrKind.IOErr,
        "unknown token: " ++ tok⟩ := by
    unfold b2csImpl.getIter
    rw [if_neg htok, h]
  rw [list_eq_of_getIter_err _ _ _ _ _ hge]

/-- C2 counterexample: reusing a consumed token does fail, but the error
kind is `IO`, not `NotExist` as the claim states. -/
theorem token_single_use_cex :
    ((((sampleState.list 3 "t0" "").2).list 3 "t1" "t0").2.list 3 "t2"
        "t0").1.2.2 ≠ none ∧
    (((((sampleState.list 3 "t0" "").2).list 3 "t1" "t0").2.list 3 "t2"
        "t0").1.2.2).map Err.kind ≠ some ErrKind.NotExist := by
  exact ⟨by decide, by decide⟩

/-- C2 witness: a concrete consumed token, reused, yields exactly the
`IO` "unknown token" error. -/
theorem token_single_use_witness :
    ((sampleState.list 3 "t0" "").2).cursors.get "t0" = some sampleCursor ∧
    ((((sampleState.list 3 "t0" "").2).list 3 "t1" "t0").2.list 3 "t2"
        "t0").1.2.2 =
      some ⟨"cloud/storage/b2cs.List", ErrKind.IOErr, "unknown token: t0"⟩ := by
  refine ⟨by decide, ?_⟩
  have h := token_single_use ((sampleState.list 3 "t0" "").2) 3 3 "t1" "t2"
    "t0" sampleCursor (by decide) (by decide) (by decide)
  exact h

/-! ### C7: attribute failure aborts the page -/

/-- C7: when the per-object attribute lookup fails mid-page, the call
aborts at once with an `errors.IO` error, an empty next token, and the
state left exactly as it was after the token was consumed — in
particular no cursor for this page is stored in the cache. -/
theorem attrs_failure_aborts_page (s s1 : b2csImpl) (P : Nat)
    (ft tok : String) (it it' : ObjectIterator) (refs : List ListRefsItem)
    (nm : String) (hg : s.getIter tok = Except.ok (it, s1))
    (hc : collectLoop s1.ctxCancelled P it [] = (refs, it', some nm)) :
    s.list P ft tok = ((refs, "",
      some ⟨"cloud/storage/b2cs.List", ErrKind.IOErr,
        "unable to get object attributes " ++ nm⟩), s1) := by
  rw [list_eq_of_getIter_ok s P ft tok it s1 hg]
  exact listFrom_attrs_fail s1 P ft it refs it' nm hc

/-- C7 witness: a concrete page whose only object's attribute lookup
fails is aborted with the I/O error and an unchanged state. -/
theorem attrs_failure_aborts_page_witness :
    badAttrsState.getIter "" =
      Except.ok (⟨[⟨"x", none⟩], none, none⟩, badAttrsState) ∧
    badAttrsState.list 1 "t" "" = (([], "",
      some ⟨"cloud/storage/b2cs.List", ErrKind.IOErr,
        "unable to get object attributes x"⟩), badAttrsState) := by
  refine ⟨rfl, ?_⟩
  have h := attrs_failure_aborts_page badAttrsState badAttrsState 1 "t" ""
    ⟨[⟨"x", none⟩], none, none⟩ ⟨[], none, none⟩ [] "x" rfl (by decide)
  exact h

/-! ### C3: the page decision policy -/

/-- C3 (amended): after a cursor is obtained, a full page with no
iteration error mints the fresh token and stores the live cursor; an
errored or short page returns the items with an empty token and
propagates the iteration error — except that a page cut short by a
per-object attribute-lookup failure returns the attribute-lookup I/O
error instead. -/
theorem list_decision_policy (s s1 : b2csImpl) (P : Nat) (ft tok : String)
    (it it' : ObjectIterator) (refs : List ListRefsItem) (af : Option String)
    (hg : s.getIter tok = Except.ok (it, s1))
    (hc : collectLoop s1.ctxCancelled P it [] = (refs, it', af)) :
    (af = none → it'.err = none → refs.length = P →
      s.list P ft tok = ((refs, ft, none),
        { s1 with cursors := s1.cursors.add ft it' })) ∧
    (af = none → (it'.err ≠ none ∨ refs.length < P) →
      s.list P ft tok = ((refs, "", it'.err), s1)) ∧
    (∀ nm, af = some nm →
      s.list P ft tok = ((refs, "",
        some ⟨"cloud/storage/b2cs.List", ErrKind.IOErr,
          "unable to get object attributes " ++ nm⟩), s1)) := by
  rw [list_eq_of_getIter_ok s P ft tok it s1 hg]
  refine ⟨?_, ?_, ?_⟩
  · rintro rfl herr hlen
    refine listFrom_mint s1 P ft it refs it' hc ?_
    rw [herr, hlen]
    simp
  · rintro rfl hcond
    refine listFrom_short s1 P ft it refs it' hc ?_
    rcases hcond with hh | hh
    · rw [Option.isSome_iff_ne_none.mpr hh]
      simp
    · simp [hh]
  · rintro nm rfl
    exact listFrom_attrs_fail s1 P ft it refs it' nm hc

/-- C3 counterexample: on an attribute-failure page, fewer than the
page-size limit of items were collected and the underlying iteration
reported no error, so the claim's first branch demands a nil error; the
code returns a non-nil I/O error instead. -/
theorem list_decision_policy_cex :
    (collectLoop badAttrsState.ctxCancelled 1
        ⟨[⟨"x", none⟩], none, none⟩ []).2.1.err = none ∧
    (badAttrsState.list 1 "t" "").1.1.length < 1 ∧
    (badAttrsState.list 1 "t" "").1.2.2 ≠ none := by
  exact ⟨by decide, by decide, by decide⟩

/-- C3 witness: on a full good page the fresh token is returned and the
cursor stored; the witness instantiates the amended policy's minting
branch concretely. -/
theorem list_decision_policy_witness :
    sampleState.getIter "" =
      Except.ok (⟨sampleCatalog 10, none, none⟩, sampleState) ∧
    sampleState.list 3 "t0" "" =
      (((sampleCatalog 10).take 3 |>.map itemOf, "t0", none),
        { sampleState with
            cursors := sampleState.cursors.add "t0" sampleCursor }) := by
  refine ⟨rfl, ?_⟩
  have h := (list_decision_policy sampleState sampleState 3 "t0" ""
    ⟨sampleCatalog 10, none, none⟩ sampleCursor
    ((sampleCatalog 10).take 3 |>.map itemOf) none rfl (by decide)).1
    rfl (by decide) (by decide)
  exact h

/-! ### C4: the cursor cache is bounded -/

/-- A `list` call leaves the cache either untouched (modulo token
removal) or with one `add` applied. -/
theorem listFrom_cursors (s : b2csImpl) (P : Nat) (ft : String)
    (it : ObjectIterator) :
    ((s.listFrom P ft it).2).cursors = s.cursors ∨
    ∃ it', ((s.listFrom P ft it).2).cursors = s.cursors.add ft it' := by
  rcases hcl : collectLoop s.ctxCancelled P it [] with ⟨refs, it', af⟩
  cases af with
  | some nm =>
    rw [listFrom_attrs_fail s P ft it refs it' nm hcl]
    exact Or.inl rfl
  | none =>
    cases hbe : (it'.err.isSome || decide (refs.length < P)) with
    | true =>
      rw [listFrom_short s P ft it refs it' hcl hbe]
      exact Or.inl rfl
    | false =>
      rw [listFrom_mint s P ft it refs it' hcl hbe]
      exact Or.inr ⟨it', rfl⟩

/-- A `list` call never grows the cache beyond its capacity. -/
theorem list_preserves_bound (s : b2csImpl) (P : Nat) (ft tok : String)
    (h : s.cursors.entries.length ≤ s.cursors.cap) :
    ((s.list P ft tok).2).cursors.entries.length ≤ s.cursors.cap := by
  cases hg : s.getIter tok with
  | error e =>
    rw [list_eq_of_getIter_err _ _ _ _ _ hg]
    exact h
  | ok p =>
    obtain ⟨it, s1⟩ := p
    rw [list_eq_of_getIter_ok _ _ _ _ _ _ hg]
    have hcap : s1.cursors.cap = s.cursors.cap ∧
        s1.cursors.entries.length ≤ s.cursors.cap := by
      rcases getIter_state s tok it s1 hg with rfl | hEq
      · exact ⟨rfl, h⟩
      · rw [hEq]
        exact ⟨rfl, le_trans (List.length_filter_le _ _) h⟩
    rcases listFrom_cursors s1 P ft it with hc | ⟨it', hc⟩
    · rw [hc]
      exact hcap.2
    · rw [hc]
      calc ((s1.cursors.add ft it').entries).length
          ≤ s1.cursors.cap := List.length_take_le _ _
        _ = s.cursors.cap := hcap.1

/-- Adding a fresh key to a cache at capacity evicts exactly the least
recently used entry: the result is the new entry followed by all old
entries but the last. -/
theorem lru_add_at_cap (c : LRU) (k : String) (v : ObjectIterator)
    (h2 : c.entries.length = c.cap) (h3 : 1 ≤ c.cap)
    (h4 : c.get k = none) :
    (c.add k v).entries = (k, v) :: c.entries.dropLast := by
  have hfind : c.entries.find? (fun p => p.1 == k) = none := by
    have h4' := h4
    unfold LRU.get at h4'
    exact Option.map_eq_none'.mp h4'
  have hfil : c.entries.filter (fun p => p.1 != k) = c.entries := by
    refine List.filter_eq_self.mpr ?_
    intro a ha
    have hne := List.find?_eq_none.mp hfind a ha
    simpa using hne
  show ((k, v) :: c.entries.filter (fun p => p.1 != k)).take c.cap = _
  rw [hfil]
  obtain ⟨m, hm⟩ : ∃ m, c.cap = m + 1 := ⟨c.cap - 1, by omega⟩
  rw [hm, List.take_succ_cons]
  congr 1
  rw [List.dropLast_eq_take]
  congr 1
  omega

/-- C4 (amended): the cursor cache never exceeds its capacity across
`list` calls; an insertion at capacity evicts exactly the least recently
used entry; and a later `list` call with an absent (for instance
evicted) token fails with the "unknown token" error — whose kind is
`errors.IO`, not `NotExist` as the claim states — rather than
crashing. -/
theorem cursor_cache_bounded (s s2 : b2csImpl) (P P2 : Nat)
    (ft ft2 tok tok2 : String) (c : LRU) (k : String) (v : ObjectIterator)
    (h1 : s.cursors.entries.length ≤ s.cursors.cap)
    (h2 : c.entries.length = c.cap) (h3 : 1 ≤ c.cap) (h4 : c.get k = none)
    (h5 : tok2 ≠ "") (h6 : s2.cursors.get tok2 = none) :
    ((s.list P ft tok).2).cursors.entries.length ≤ s.cursors.cap ∧
    (c.add k v).entries = (k, v) :: c.entries.dropLast ∧
    ((s2.list P2 ft2 tok2).1.2.2).map Err.kind = some ErrKind.IOErr ∧
    (s2.list P2 ft2 tok2).1.2.1 = "" := by
  have hge : s2.getIter tok2 = Except.error
      ⟨"cloud/storage/b2cs.List", ErrKind.IOErr,
        "unknown token: " ++ tok2⟩ := by
    unfold b2csImpl.getIter
    rw [if_neg h5, h6]
  refine ⟨list_preserves_bound s P ft tok h1,
    lru_add_at_cap c k v h2 h3 h4, ?_, ?_⟩
  · rw [list_eq_of_getIter_err _ _ _ _ _ hge]
    rfl
  · rw [list_eq_of_getIter_err _ _ _ _ _ hge]

/-- C4 counterexample: with a capacity-1 cache holding token `"a"`, a
minting `list` call evicts `"a"`; the later call with `"a"` fails, but
with error kind `IO`, not the `NotExist` the claim states. -/
theorem cursor_cache_bounded_cex :
    ((fullCacheState.list 1 "b" "").2).cursors.entries.length = 1 ∧
    ((fullCacheState.list 1 "b" "").2).cursors.get "a" = none ∧
    ((((fullCacheState.list 1 "b" "").2).list 1 "c" "a").1.2.2).map
      Err.kind ≠ some ErrKind.NotExist ∧
    (((fullCacheState.list 1 "b" "").2).list 1 "c" "a").1.2.2 ≠ none := by
  exact ⟨by decide, by decide, by decide, by decide⟩

/-- C4 witness: concrete instantiation — a full capacity-1 cache, a
fresh key, eviction of the last entry, and the `IO` unknown-token error
for an absent token. -/
theorem cursor_cache_bounded_witness :
    fullCacheState.cursors.entries.length = fullCacheState.cursors.cap ∧
    ((sampleState.list 3 "t" "").2).cursors.entries.length ≤
      sampleState.cursors.cap ∧
    (fullCacheState.cursors.add "b" sampleCursor).entries =
      ("b", sampleCursor) :: fullCacheState.cursors.entries.dropLast ∧
    ((sampleState.list 3 "t2" "zz").1.2.2).map Err.kind =
      some ErrKind.IOErr := by
  refine ⟨by decide, ?_⟩
  have h := cursor_cache_bounded sampleState sampleState 3 3 "t" "t2" "" "zz"
    fullCacheState.cursors "b" sampleCursor (by decide) (by decide)
    (by decide) (by decide) (by decide) (by decide)
  exact ⟨h.1, h.2.1, h.2.2.1⟩

/-! ### C6: lazy, memoized visibility classification -/

/-- C6: on its first call (unresolved visibility), `LinkBase` classifies
the bucket — defaulting to private when the attribute lookup fails —
memoizes the result, returns the public browsing URL with a nil error
exactly when the classification is public, otherwise the not-supported
sentinel; and a second call reuses the memoized classification without
change. -/
theorem linkbase_lazy_memoized (s : b2csImpl) (b : Bucket)
    (hb : s.bucket = some b) (ha : s.access = none) :
    ((s.LinkBase).2).access =
      some ((b.Attrs s.ctxCancelled).getD BucketType.Private) ∧
    ((b.Attrs s.ctxCancelled).getD BucketType.Private = BucketType.Public →
      (s.LinkBase).1 =
        Except.ok (b.baseURL ++ "/file/" ++ b.name ++ "/")) ∧
    ((b.Attrs s.ctxCancelled).getD BucketType.Private ≠ BucketType.Public →
      (s.LinkBase).1 = Except.error ⟨"cloud/storage/b2cs.LinkBase",
        ErrKind.Unsupported, "not supported"⟩) ∧
    ((s.LinkBase).2).LinkBase = s.LinkBase := by
  cases hA : b.Attrs s.ctxCancelled with
  | none =>
    simp [b2csImpl.LinkBase, b2csImpl.checkAccess, hb, ha, hA]
  | some t =>
    cases t <;>
      simp [b2csImpl.LinkBase, b2csImpl.checkAccess, hb, ha, hA]

/-- C6 witness: a public bucket yields the browsing URL, the
classification is memoized, and the second call repeats the result. -/
theorem linkbase_lazy_memoized_witness :
    pubState.bucket = some pubBucket ∧
    (pubState.LinkBase).1 =
      Except.ok (pubBucket.baseURL ++ "/file/" ++ pubBucket.name ++ "/") ∧
    ((pubState.LinkBase).2).access = some BucketType.Public ∧
    ((pubState.LinkBase).2).LinkBase = pubState.LinkBase := by
  have h := linkbase_lazy_memoized pubState pubBucket rfl rfl
  exact ⟨rfl, h.2.1 (by decide), h.1, h.2.2.2⟩

/-! ### C1: the full pagination walk -/

/-- The collection loop on a clean cursor over good objects: it pulls
`min fuel |pending|` items in order and leaves the rest pending, with no
error and no attribute failure. -/
theorem collectLoop_good :
    ∀ (k : Nat) (pend : List B2Object) (acc : List ListRefsItem),
      (∀ o ∈ pend, o.attrs ≠ none) →
      collectLoop false k ⟨pend, none, none⟩ acc =
        (acc ++ (pend.take k).map itemOf, ⟨pend.drop k, none, none⟩, none) := by
  intro k
  induction k with
  | zero =>
    intro pend acc h
    simp [collectLoop]
  | succ n ih =>
    intro pend acc h
    cases pend with
    | nil =>
      simp [collectLoop, ObjectIterator.next]
    | cons o rest =>
      have ho : o.attrs ≠ none := h o (List.mem_cons_self o rest)
      obtain ⟨sz, hsz⟩ := Option.ne_none_iff_exists'.mp ho
      have hrest : ∀ o' ∈ rest, o'.attrs ≠ none :=
        fun o' ho' => h o' (List.mem_cons_of_mem o ho')
      have hstep : collectLoop false (n + 1) ⟨o :: rest, none, none⟩ acc =
          collectLoop false n ⟨rest, none, none⟩ (acc ++ [⟨o.name, sz⟩]) := by
        simp [collectLoop, ObjectIterator.next, hsz]
      rw [hstep, ih rest _ hrest]
      simp [itemOf, hsz, List.append_assoc]

/-- One page over a clean good cursor: a short catalog completes the
listing (empty next token, nil error); otherwise exactly `P` items come
back, the fresh token is minted and the remainder cursor stored. -/
theorem listFrom_good (s : b2csImpl) (P : Nat) (ft : String)
    (l : List B2Object) (hcc : s.ctxCancelled = false)
    (hg : ∀ o ∈ l, o.attrs ≠ none) :
    s.listFrom P ft ⟨l, none, none⟩ =
      if l.length < P then ((l.map itemOf, "", none), s)
      else (((l.take P).map itemOf, ft, none),
        { s with cursors := s.cursors.add ft ⟨l.drop P, none, none⟩ }) := by
  have hcl : collectLoop s.ctxCancelled P ⟨l, none, none⟩ [] =
      ((l.take P).map itemOf, ⟨l.drop P, none, none⟩, none) := by
    rw [hcc, collectLoop_good P l [] hg]
    simp
  by_cases hlen : l.length < P
  · rw [if_pos hlen]
    have ht : l.take P = l := List.take_of_length_le (le_of_lt hlen)
    rw [ht] at hcl
    have hcond : ((⟨l.drop P, none, none⟩ : ObjectIterator).err.isSome ||
        decide ((l.map itemOf).length < P)) = true := by
      simp [hlen]
    rw [listFrom_short s P ft _ _ _ hcl hcond]
  · rw [if_neg hlen]
    have hcond : ((⟨l.drop P, none, none⟩ : ObjectIterator).err.isSome ||
        decide (((l.take P).map itemOf).length < P)) = false := by
      simp [List.length_take, Nat.min_eq_left (le_of_not_lt hlen)]
    rw [listFrom_mint s P ft _ _ _ hcl hcond]

/-- Resuming the walk from a cached good cursor over `l` remaining
objects collects exactly `l` across `l.length / P + 1` further calls. -/
theorem driveList_token (P : Nat) (hP : 1 ≤ P) (ts : Nat → String)
    (hts : ∀ i, ts i ≠ "") :
    ∀ (fuel : Nat) (l : List B2Object) (s : b2csImpl) (tok : String)
      (calls : Nat) (acc : List ListRefsItem),
      tok ≠ "" →
      s.cursors = ⟨100, [(tok, ⟨l, none, none⟩)]⟩ →
      s.ctxCancelled = false →
      (∀ o ∈ l, o.attrs ≠ none) →
      l.length / P + 1 ≤ fuel →
      driveList P ts fuel s tok calls acc =
        (acc ++ l.map itemOf, calls + (l.length / P + 1), none) := by
  intro fuel
  induction fuel with
  | zero =>
    intro l s tok calls acc _ _ _ _ hf
    exact absurd hf (Nat.not_succ_le_zero _)
  | succ n ih =>
    intro l s tok calls acc htok hcur hcc hg hf
    have hget : s.cursors.get tok = some ⟨l, none, none⟩ := by
      rw [hcur]
      simp [LRU.get]
    have hgi : s.getIter tok = Except.ok (⟨l, none, none⟩,
        { s with cursors := s.cursors.remove tok }) := by
      unfold b2csImpl.getIter
      rw [if_neg htok, hget]
    have hrm : s.cursors.remove tok = ⟨100, []⟩ := by
      rw [hcur]
      simp [LRU.remove]
    have hlist := list_eq_of_getIter_ok s P (ts calls) tok _ _ hgi
    have hcc1 : ({ s with cursors := s.cursors.remove tok } :
        b2csImpl).ctxCancelled = false := hcc
    rw [listFrom_good _ P (ts calls) l hcc1 hg] at hlist
    show driveList P ts (n + 1) s tok calls acc = _
    by_cases hlen : l.length < P
    · rw [if_pos hlen] at hlist
      rw [driveList, hlist]
      simp [Nat.div_eq_of_lt hlen]
    · have hPle : P ≤ l.length := le_of_not_lt hlen
      have hdiv : l.length / P = (l.length - P) / P + 1 :=
        Nat.div_eq_sub_div (by omega) hPle
      rw [if_neg hlen] at hlist
      rw [driveList, hlist]
      simp only
      rw [if_neg (hts calls)]
      have hcur2 : (s.cursors.remove tok).add (ts calls)
          ⟨l.drop P, none, none⟩ =
          ⟨100, [(ts calls, ⟨l.drop P, none, none⟩)]⟩ := by
        rw [hrm]
        simp [LRU.add]
      have hg2 : ∀ o ∈ l.drop P, o.attrs ≠ none :=
        fun o ho => hg o (List.drop_subset _ _ ho)
      have hf2 : (l.drop P).length / P + 1 ≤ n := by
        rw [List.length_drop]
        omega
      rw [ih (l.drop P)
        { s with cursors := ((s.cursors.remove tok).add (ts calls) ⟨l.drop P, none, none⟩) }
        (ts calls) (calls + 1) (acc ++ (l.take P).map itemOf)
        (hts calls) hcur2 hcc hg2 hf2]
      have h1 : acc ++ (l.take P).map itemOf ++ (l.drop P).map itemOf =
          acc ++ l.map itemOf := by
        rw [List.append_assoc, ← List.map_append, List.take_append_drop]
      have h2 : calls + 1 + ((l.drop P).length / P + 1) =
          calls + (l.length / P + 1) := by
        rw [List.length_drop]
        omega
      rw [h1, h2]

/-- C1 (amended): for every page size `P ≥ 1` and every catalog, the
resumption loop started from the empty token returns exactly the catalog
items, in order, with no duplicates or omissions — and takes exactly
`N / P + 1` calls (integer division), which is `⌈N/P⌉` when `P` does not
divide `N` and `⌈N/P⌉ + 1` (a final empty page) when `P` divides
`N > 0`, with one call for `N = 0`. -/
theorem list_full_walk (P : Nat) (hP : 1 ≤ P) (b : Bucket)
    (ts : Nat → String) (hstop : b.iterStop = none)
    (hg : ∀ o ∈ b.objs, o.attrs ≠ none) (hts : ∀ i, ts i ≠ "") :
    driveList P ts (b.objs.length + 1) (mkB2cs b) "" 0 [] =
      (b.objs.map itemOf, b.objs.length / P + 1, none) := by
  have hgi : (mkB2cs b).getIter "" =
      Except.ok (⟨b.objs, none, none⟩, mkB2cs b) := by
    unfold b2csImpl.getIter
    rw [if_pos rfl]
    show Except.ok (freshIter b, mkB2cs b) = _
    simp [freshIter, hstop]
  have hlist := list_eq_of_getIter_ok (mkB2cs b) P (ts 0) "" _ _ hgi
  rw [listFrom_good (mkB2cs b) P (ts 0) b.objs rfl hg] at hlist
  by_cases hlen : b.objs.length < P
  · rw [if_pos hlen] at hlist
    rw [driveList, hlist]
    simp [Nat.div_eq_of_lt hlen]
  · have hPle : P ≤ b.objs.length := le_of_not_lt hlen
    have hdiv : b.objs.length / P = (b.objs.length - P) / P + 1 :=
      Nat.div_eq_sub_div (by omega) hPle
    rw [if_neg hlen] at hlist
    rw [driveList, hlist]
    simp only
    rw [if_neg (hts 0)]
    have hcur2 : (mkB2cs b).cursors.add (ts 0)
        ⟨b.objs.drop P, none, none⟩ =
        ⟨100, [(ts 0, ⟨b.objs.drop P, none, none⟩)]⟩ := by
      simp [mkB2cs, LRU.add]
    have hg2 : ∀ o ∈ b.objs.drop P, o.attrs ≠ none :=
      fun o ho => hg o (List.drop_subset _ _ ho)
    have hf2 : (b.objs.drop P).length / P + 1 ≤ b.objs.length := by
      rw [List.length_drop]
      have := Nat.div_le_self b.objs.length P
      omega
    rw [driveList_token P hP ts hts b.objs.length (b.objs.drop P)
      { mkB2cs b with cursors := ((mkB2cs b).cursors.add (ts 0) ⟨b.objs.drop P, none, none⟩) }
      (ts 0) 1 ([] ++ (b.objs.take P).map itemOf)
      (hts 0) hcur2 rfl hg2 hf2]
    have h1 : [] ++ (b.objs.take P).map itemOf ++ (b.objs.drop P).map itemOf
        = b.objs.map itemOf := by
      rw [List.nil_append, ← List.map_append, List.take_append_drop]
    have h2 : 1 + ((b.objs.drop P).length / P + 1) =
        0 + (b.objs.length / P + 1) := by
      rw [List.length_drop]
      omega
    rw [h1, h2]
    simp

/-- C1 counterexample: a one-object catalog listed with page size 1 is
walked in 2 calls, while the claim's `⌈N/P⌉ = ⌈1/1⌉` demands 1. -/
theorem list_full_walk_cex :
    (driveList 1 (fun _ => "t") 2 (mkB2cs oneObjBucket) "" 0 []).1 =
      [⟨"o", 1⟩] ∧
    (driveList 1 (fun _ => "t") 2 (mkB2cs oneObjBucket) "" 0 []).2.1 = 2 ∧
    (1 + 1 - 1) / 1 = 1 ∧
    (driveList 1 (fun _ => "t") 2 (mkB2cs oneObjBucket) "" 0 []).2.1 ≠
      (1 + 1 - 1) / 1 := by
  exact ⟨by decide, by decide, by decide, by decide⟩

/-- C1 witness: the repository's own test scenario — page size 3, ten
objects — walked in `10 / 3 + 1 = 4` calls with all ten items. -/
theorem list_full_walk_witness :
    1 ≤ 3 ∧ sampleBucket.iterStop = none ∧
    driveList 3 (fun _ => "t") (sampleBucket.objs.length + 1) sampleState
        "" 0 [] =
      (sampleBucket.objs.map itemOf, sampleBucket.objs.length / 3 + 1,
        none) := by
  refine ⟨by decide, rfl, ?_⟩
  exact list_full_walk 3 (by decide) sampleBucket (fun _ => "t") rfl
    (by decide) (fun i => by show ("t" : String) ≠ ""; decide)

end B2cs
